import Mathlib

/-!
Verification of the crop-geometry, export, load-state, unread-count and
conversation-deletion logic of the social-media client.

The repository contains two cropper components sharing the same display
transform: the avatar cropper (`src/src/components/ImageCropper.tsx`, a
square move-only region with a fixed 400x400 JPEG export) and the post
cropper (third document of `src/src/components/SearchPage.tsx`, a
rectangular region with eight resize handles, a configurable aspect
ratio and a `min(1080, round(srcW))` export).  Geometry is embedded over
`ℚ`; machine floating point is replaced by exact rational arithmetic.
-/

/-- Display transform computed by `calcDims` in both croppers:
natural size `(w, h)`, displayed size `(dispW, dispH)` and the offsets
centring the displayed image in the container. -/
structure ImgDims where
  w : ℚ
  h : ℚ
  dispW : ℚ
  dispH : ℚ
  offsetX : ℚ
  offsetY : ℚ
  deriving DecidableEq

namespace Avatar

/-- Crop state of the avatar cropper: `useState({ x: 0, y: 0, size: 200 })`.
The region is a square; `size` is both its width and its height. -/
structure CropArea where
  x : ℚ
  y : ℚ
  size : ℚ
  deriving DecidableEq

/-- Width of the region as rendered (`width: cropArea.size`). -/
def CropArea.width (c : CropArea) : ℚ := c.size

/-- Height of the region as rendered (`height: cropArea.size`). -/
def CropArea.height (c : CropArea) : ℚ := c.size

/-- The avatar cropper's target aspect ratio; the component is hardcoded
to 1:1 ("Potong Foto (1:1)"). -/
def targetAspect : ℚ := 1

/-- The `calcDims` callback of `ImageCropper.tsx`: uniform scale-to-fit of
the natural image `(iw, ih)` into the container `(cw, ch)`, and the initial
crop region sized to 80 percent of the limiting displayed dimension,
centred. -/
def calcDims (cw ch iw ih : ℚ) : ImgDims × CropArea :=
  let scale := min (cw / iw) (ch / ih)
  let dispW := iw * scale
  let dispH := ih * scale
  let offsetX := (cw - dispW) / 2
  let offsetY := (ch - dispH) / 2
  let cropSize := min dispW dispH * (8 / 10)
  (⟨iw, ih, dispW, dispH, offsetX, offsetY⟩,
   ⟨offsetX + (dispW - cropSize) / 2, offsetY + (dispH - cropSize) / 2, cropSize⟩)

/-- The `clampCrop` helper: clamp a candidate position into
`[offsetX, offsetX + dispW - size]` times `[offsetY, offsetY + dispH - size]`. -/
def clampCrop (dims : ImgDims) (size x y : ℚ) : ℚ × ℚ :=
  let minX := dims.offsetX
  let minY := dims.offsetY
  let maxX := dims.offsetX + dims.dispW - size
  let maxY := dims.offsetY + dims.dispH - size
  (max minX (min maxX x), max minY (min maxY y))

/-- The `handlePointerDown` handler: a press inside the region starts a
move drag and records the pointer offset from the region's corner;
a press outside does nothing. -/
def handlePointerDown (crop : CropArea) (px py : ℚ) : Option (ℚ × ℚ) :=
  if crop.x ≤ px ∧ px ≤ crop.x + crop.size ∧ crop.y ≤ py ∧ py ≤ crop.y + crop.size
  then some (px - crop.x, py - crop.y)
  else none

/-- The `handlePointerMove` handler during a drag: the candidate position
`(px - dragStart.x, py - dragStart.y)` is clamped and only `x`/`y` of the
region are replaced (`size` is spread from the previous state). -/
def handlePointerMove (dims : ImgDims) (dragStart : ℚ × ℚ) (crop : CropArea)
    (px py : ℚ) : CropArea :=
  let clamped := clampCrop dims crop.size (px - dragStart.1) (py - dragStart.2)
  { crop with x := clamped.1, y := clamped.2 }

/-- One pointer-move event of a drag: the session's `dragStart` paired
with the pointer position. -/
def dragStep (dims : ImgDims) (crop : CropArea) (e : (ℚ × ℚ) × ℚ × ℚ) : CropArea :=
  handlePointerMove dims e.1 crop e.2.1 e.2.2

/-- A valid drag sequence: fold the pointer-move handler over a list of
events (each event carries its session's `dragStart` and the pointer
position, so the list may span several press/release sessions). -/
def runDragEvents (dims : ImgDims) (crop : CropArea)
    (events : List ((ℚ × ℚ) × ℚ × ℚ)) : CropArea :=
  events.foldl (dragStep dims) crop

/-- Containment of the crop region in the displayed image's bounding box. -/
def Contained (dims : ImgDims) (c : CropArea) : Prop :=
  dims.offsetX ≤ c.x ∧ c.x + c.size ≤ dims.offsetX + dims.dispW ∧
  dims.offsetY ≤ c.y ∧ c.y + c.size ≤ dims.offsetY + dims.dispH

instance (dims : ImgDims) (c : CropArea) : Decidable (Contained dims c) := by
  unfold Contained
  infer_instance

/-- The source-rectangle computation of `handleCrop` (lines 99-103):
inverse of the uniform scale-to-fit transform applied to the region,
yielding `(srcX, srcY, srcSize)` in natural-image pixels. -/
def mapRegionToSource (dims : ImgDims) (crop : CropArea) : ℚ × ℚ × ℚ :=
  let scaleX := dims.w / dims.dispW
  let scaleY := dims.h / dims.dispH
  ((crop.x - dims.offsetX) * scaleX,
   (crop.y - dims.offsetY) * scaleY,
   crop.size * min scaleX scaleY)

/-- Parameters of the raster export produced by `handleCrop`. -/
structure CropExport where
  srcX : ℚ
  srcY : ℚ
  srcSize : ℚ
  outWidth : ℕ
  outHeight : ℕ
  mime : String
  quality : ℚ
  deriving DecidableEq

/-- The `handleCrop` handler of the avatar cropper: draw the mapped source
square onto a canvas of constant size `outputSize = 400` and encode it as
JPEG at quality 0.9. -/
def handleCrop (dims : ImgDims) (crop : CropArea) : CropExport :=
  let src := mapRegionToSource dims crop
  ⟨src.1, src.2.1, src.2.2, 400, 400, "image/jpeg", 9 / 10⟩

end Avatar

namespace PostCropper

/-- Crop state of the post cropper: `useState({ x: 0, y: 0, w: 200, h: 200 })`. -/
structure RectCrop where
  x : ℚ
  y : ℚ
  w : ℚ
  h : ℚ
  deriving DecidableEq

/-- The eight resize handles of the `DragMode` union. -/
inductive Handle
  | tl
  | tr
  | bl
  | br
  | t
  | b
  | l
  | r
  deriving DecidableEq

/-- A non-null `DragMode`: translation or one of the eight resizes. -/
inductive DragMode
  | move
  | resize (h : Handle)
  deriving DecidableEq

/-- The `MIN_CROP_SIZE` constant (60 display pixels). -/
def MIN_CROP_SIZE : ℚ := 60

/-- JavaScript `Math.abs`. -/
def jsAbs (q : ℚ) : ℚ := if q < 0 then -q else q

/-- The post cropper's `calcDims`: same scale-to-fit transform, then an
initial region at 80 percent of the limiting dimension for the aspect
ratio `ar`, shrunk further if either dimension would overflow. -/
def calcDims (ar cw ch iw ih : ℚ) : ImgDims × RectCrop :=
  let scale := min (cw / iw) (ch / ih)
  let dispW := iw * scale
  let dispH := ih * scale
  let offsetX := (cw - dispW) / 2
  let offsetY := (ch - dispH) / 2
  let c1 := if dispW / dispH > ar then (dispH * (8 / 10) * ar, dispH * (8 / 10))
            else (dispW * (8 / 10), dispW * (8 / 10) / ar)
  let c2 := if c1.1 > dispW then (dispW, dispW / ar) else c1
  let c3 := if c2.2 > dispH then (dispH * ar, dispH) else c2
  (⟨iw, ih, dispW, dispH, offsetX, offsetY⟩,
   ⟨offsetX + (dispW - c3.1) / 2, offsetY + (dispH - c3.2) / 2, c3.1, c3.2⟩)

/-- The post cropper's `clampCrop`: clamp a candidate position for a
region of size `(w, h)` into the displayed image's box. -/
def clampCrop (dims : ImgDims) (x y w h : ℚ) : ℚ × ℚ :=
  (max dims.offsetX (min (dims.offsetX + dims.dispW - w) x),
   max dims.offsetY (min (dims.offsetY + dims.dispH - h) y))

/-- The `getMaxCropSize` helper: space available between an anchor point
and the displayed image's bound in the drag direction, corrected to the
aspect ratio. -/
def getMaxCropSize (dims : ImgDims) (ar anchorX anchorY dirX dirY : ℚ) : ℚ × ℚ :=
  let maxW := if dirX > 0 then dims.offsetX + dims.dispW - anchorX else anchorX - dims.offsetX
  let maxH := if dirY > 0 then dims.offsetY + dims.dispH - anchorY else anchorY - dims.offsetY
  if maxW / maxH > ar then (maxH * ar, maxH) else (maxW, maxW / ar)

/-- The `detectMode` classifier: a pointer within an 18-pixel band of an
edge or corner selects the corresponding resize handle, a pointer inside
the body selects `move`, anything else no interaction. -/
def detectMode (crop : RectCrop) (px py : ℚ) : Option DragMode :=
  let edge : ℚ := 18
  let nearLeft := jsAbs (px - crop.x) < edge
  let nearRight := jsAbs (px - (crop.x + crop.w)) < edge
  let nearTop := jsAbs (py - crop.y) < edge
  let nearBottom := jsAbs (py - (crop.y + crop.h)) < edge
  let inX := crop.x - edge ≤ px ∧ px ≤ crop.x + crop.w + edge
  let inY := crop.y - edge ≤ py ∧ py ≤ crop.y + crop.h + edge
  if nearTop ∧ nearLeft then some (.resize .tl)
  else if nearTop ∧ nearRight then some (.resize .tr)
  else if nearBottom ∧ nearLeft then some (.resize .bl)
  else if nearBottom ∧ nearRight then some (.resize .br)
  else if nearTop ∧ inX then some (.resize .t)
  else if nearBottom ∧ inX then some (.resize .b)
  else if nearLeft ∧ inY then some (.resize .l)
  else if nearRight ∧ inY then some (.resize .r)
  else if crop.x ≤ px ∧ px ≤ crop.x + crop.w ∧ crop.y ≤ py ∧ py ≤ crop.y + crop.h
  then some .move
  else none

/-- Tail of the resize branch of `handlePointerMove`: push the position
inside the image, then shrink the size (re-deriving the dependent
dimension from the aspect ratio) if the region overflows on the right or
the bottom, in that order. -/
def finalClamp (dims : ImgDims) (ar x y w h : ℚ) : RectCrop :=
  let nx := max dims.offsetX x
  let ny := max dims.offsetY y
  let p1 := if nx + w > dims.offsetX + dims.dispW
            then (dims.offsetX + dims.dispW - nx, (dims.offsetX + dims.dispW - nx) / ar)
            else (w, h)
  let p2 := if ny + p1.2 > dims.offsetY + dims.dispH
            then ((dims.offsetY + dims.dispH - ny) * ar, dims.offsetY + dims.dispH - ny)
            else p1
  ⟨nx, ny, p2.1, p2.2⟩

/-- The resize cases of `handlePointerMove`: recompute the dragged edges
from the session's starting region `cs` and the pointer displacement
`(dx, dy)`, holding the opposite edge(s) as anchor, clamp the size to
`[MIN_CROP_SIZE, available space]`, re-derive the dependent dimension
from the aspect ratio, then apply the final containment clamp. -/
def resizeCrop (dims : ImgDims) (ar : ℚ) (cs : RectCrop) (handle : Handle)
    (dx dy : ℚ) : RectCrop :=
  match handle with
  | .br =>
      let m := getMaxCropSize dims ar cs.x cs.y 1 1
      let w := max MIN_CROP_SIZE (min (cs.w + dx) m.1)
      finalClamp dims ar cs.x cs.y w (w / ar)
  | .bl =>
      let m := getMaxCropSize dims ar (cs.x + cs.w) cs.y (-1) 1
      let w := max MIN_CROP_SIZE (min (cs.w - dx) m.1)
      finalClamp dims ar (cs.x + cs.w - w) cs.y w (w / ar)
  | .tr =>
      let m := getMaxCropSize dims ar cs.x (cs.y + cs.h) 1 (-1)
      let w := max MIN_CROP_SIZE (min (cs.w + dx) m.1)
      finalClamp dims ar cs.x (cs.y + cs.h - w / ar) w (w / ar)
  | .tl =>
      let m := getMaxCropSize dims ar (cs.x + cs.w) (cs.y + cs.h) (-1) (-1)
      let w := max MIN_CROP_SIZE (min (cs.w - dx) m.1)
      finalClamp dims ar (cs.x + cs.w - w) (cs.y + cs.h - w / ar) w (w / ar)
  | .r =>
      let m := getMaxCropSize dims ar cs.x cs.y 1 1
      let w := max MIN_CROP_SIZE (min (cs.w + dx) m.1)
      finalClamp dims ar cs.x (cs.y + cs.h / 2 - w / ar / 2) w (w / ar)
  | .l =>
      let w := max MIN_CROP_SIZE (min (cs.w - dx) (cs.x + cs.w - dims.offsetX))
      finalClamp dims ar (cs.x + cs.w - w) (cs.y + cs.h / 2 - w / ar / 2) w (w / ar)
  | .b =>
      let m := getMaxCropSize dims ar cs.x cs.y 1 1
      let h := max (MIN_CROP_SIZE / ar) (min (cs.h + dy) m.2)
      finalClamp dims ar (cs.x + cs.w / 2 - h * ar / 2) cs.y (h * ar) h
  | .t =>
      let h := max (MIN_CROP_SIZE / ar) (min (cs.h - dy) (cs.y + cs.h - dims.offsetY))
      finalClamp dims ar (cs.x + cs.w / 2 - h * ar / 2) (cs.y + cs.h - h) (h * ar) h

/-- Pointer events seen by the post cropper's container. -/
inductive PEvent
  | down (px py : ℚ)
  | move (px py : ℚ)
  | up
  deriving DecidableEq

/-- Component state: current region plus the transient drag session
(`dragMode`, `dragStart`, `cropStart`); the session fields are captured
on press and consulted on move. -/
structure State where
  cropArea : RectCrop
  dragMode : Option DragMode
  dragStart : ℚ × ℚ
  cropStart : RectCrop
  deriving DecidableEq

/-- The `handlePointerMove` handler: without an active drag only the
cursor affordance changes; a `move` drag clamps the translated start
region and replaces only `x`/`y`; a resize drag recomputes the region
with `resizeCrop`. -/
def handlePointerMove (dims : ImgDims) (ar : ℚ) (st : State) (px py : ℚ) : State :=
  match st.dragMode with
  | none => st
  | some .move =>
      let dx := px - st.dragStart.1
      let dy := py - st.dragStart.2
      let c := clampCrop dims (st.cropStart.x + dx) (st.cropStart.y + dy)
        st.cropStart.w st.cropStart.h
      { st with cropArea := { st.cropArea with x := c.1, y := c.2 } }
  | some (.resize handle) =>
      { st with cropArea :=
          resizeCrop dims ar st.cropStart handle (px - st.dragStart.1) (py - st.dragStart.2) }

/-- One step of the event loop: press classifies the pointer and opens a
session, move is handled by `handlePointerMove`, release clears the mode. -/
def step (dims : ImgDims) (ar : ℚ) (st : State) : PEvent → State
  | .down px py =>
      match detectMode st.cropArea px py with
      | none => st
      | some m => { st with dragMode := some m, dragStart := (px, py), cropStart := st.cropArea }
  | .move px py => handlePointerMove dims ar st px py
  | .up => { st with dragMode := none }

/-- State right after image load: region from `calcDims`, no active drag,
`dragStart` and `cropStart` at their `useState` initial values. -/
def initState (ar cw ch iw ih : ℚ) : State :=
  ⟨(calcDims ar cw ch iw ih).2, none, (0, 0), ⟨0, 0, 0, 0⟩⟩

/-- Run a drag sequence: fold the event step from the post-load state. -/
def run (ar cw ch iw ih : ℚ) (events : List PEvent) : State :=
  events.foldl (step (calcDims ar cw ch iw ih).1 ar) (initState ar cw ch iw ih)

/-- JavaScript `Math.round`: floor of the argument plus one half. -/
def jsRound (q : ℚ) : ℤ := ⌊q + 1 / 2⌋

/-- Parameters of the raster export produced by the post cropper. -/
structure PostExport where
  srcX : ℚ
  srcY : ℚ
  srcW : ℚ
  srcH : ℚ
  outputW : ℤ
  outputH : ℤ
  mime : String
  quality : ℚ
  deriving DecidableEq

/-- The post cropper's `handleCrop`: map the region to source pixels,
cap the output width at `min(1080, round(srcW))`, derive the height from
the aspect ratio, and encode as JPEG at quality 0.92. -/
def handleCrop (dims : ImgDims) (ar : ℚ) (crop : RectCrop) : PostExport :=
  let scaleX := dims.w / dims.dispW
  let scaleY := dims.h / dims.dispH
  let srcX := (crop.x - dims.offsetX) * scaleX
  let srcY := (crop.y - dims.offsetY) * scaleY
  let srcW := crop.w * scaleX
  let srcH := crop.h * scaleY
  let outputW := min 1080 (jsRound srcW)
  let outputH := jsRound ((outputW : ℚ) / ar)
  ⟨srcX, srcY, srcW, srcH, outputW, outputH, "image/jpeg", 92 / 100⟩

/-- Exact aspect-ratio relation `w = ar * h` of a region; the invariant
maintained by every handler. -/
def AspectInv (ar : ℚ) (c : RectCrop) : Prop := c.w = ar * c.h

instance (ar : ℚ) (c : RectCrop) : Decidable (AspectInv ar c) := by
  unfold AspectInv
  infer_instance

end PostCropper

/-- Events the hidden `Image` object can fire while the cropper waits for
the source to decode. -/
inductive ImgEvent
  | load
  | error
  deriving DecidableEq

/-- The only load-related component state: the `imgLoaded` flag. -/
structure LoadState where
  imgLoaded : Bool
  deriving DecidableEq

/-- The `useState(false)` initial value of `imgLoaded`. -/
def initLoadState : LoadState := ⟨false⟩

/-- Event handling of the load effect: the code registers only
`img.onload` (which sets `imgLoaded`); no `onerror` handler exists, so an
error event leaves the state untouched. -/
def imgEventStep (s : LoadState) : ImgEvent → LoadState
  | .load => ⟨true⟩
  | .error => s

/-- The render branch at the bottom of the component: the spinner is
shown exactly when `imgLoaded` is false. -/
def showsLoadingSpinner (s : LoadState) : Bool := !s.imgLoaded

/-- The two caller-supplied callbacks of the cropper props. -/
inductive CropperCallback
  | onCrop
  | onCancel
  deriving DecidableEq

/-- Callbacks invoked while handling a load-related event: the `onload`
body only sets state and schedules `calcDims`; neither handler ever calls
`onCrop` or `onCancel`, and no error callback exists at all. -/
def imgEventCallbacks : ImgEvent → List CropperCallback := fun _ => []

/-- A message record as used by the unread-count queries: sender id,
receiver id, creation timestamp (milliseconds) and the read flag. -/
structure Msg where
  senderId : ℕ
  receiverId : ℕ
  createdAt : ℤ
  isRead : Bool
  deriving DecidableEq

/-- The `fetchUnreadMessages` query of `App.tsx`: count of messages with
`receiver_id = me` and `is_read = false`. -/
def fetchUnreadMessages (me : ℕ) (msgs : List Msg) : ℕ :=
  (msgs.filter (fun m => m.receiverId == me && !m.isRead)).length

/-- Milliseconds in the 24-hour window (`24 * 60 * 60 * 1000`). -/
def oneDayMs : ℤ := 24 * 60 * 60 * 1000

/-- The `fetchUnreadGroups` query of `App.tsx`, over the group messages of
the user's member groups: count of messages not sent by the user whose
`created_at` lies within the last 24 hours. -/
def fetchUnreadGroups (me : ℕ) (now : ℤ) (msgs : List Msg) : ℕ :=
  (msgs.filter (fun m => m.senderId != me && decide (now - oneDayMs < m.createdAt))).length

/-- The notification badge count of `HomePage.tsx`: with a stored
`notif_last_seen` timestamp, the number of notification items newer than
it; with none stored, the number of all items. -/
def unreadFromLastSeen (lastSeen : Option ℤ) (msgs : List Msg) : ℕ :=
  match lastSeen with
  | some t => (msgs.filter (fun m => decide (t < m.createdAt))).length
  | none => msgs.length

/-- State touched by the messages page's deletion flow: the backend
message store (never addressed by the handler), the locally displayed
contact list, and the `deleted_convos` map kept in browser local storage
(other-user id to deletion timestamp). -/
structure ConvoState where
  backendMessages : List Msg
  contacts : List ℕ
  deletedConvos : List (ℕ × ℤ)
  showDeletePopup : Bool
  deriving DecidableEq

/-- The `saveDeletedConvos` helper: replace the map in component state
and in local storage. -/
def saveDeletedConvos (s : ConvoState) (m : List (ℕ × ℤ)) : ConvoState :=
  { s with deletedConvos := m }

/-- JavaScript object spread `{...m, [k]: v}` on the association map:
set key `k` to `v`, keeping every other key. -/
def setDeletedKey (m : List (ℕ × ℤ)) (k : ℕ) (v : ℤ) : List (ℕ × ℤ) :=
  (k, v) :: m.filter (fun p => p.1 != k)

/-- The `handleDeleteConversation` handler: record the current timestamp
under the long-pressed user's id via `saveDeletedConvos`, filter that
contact out of the displayed list, and close the popup.  No backend call
appears anywhere in the handler. -/
def handleDeleteConversation (s : ConvoState) (target : ℕ) (now : ℤ) : ConvoState :=
  let s1 := saveDeletedConvos s (setDeletedKey s.deletedConvos target now)
  { s1 with contacts := s1.contacts.filter (fun c => c != target), showDeletePopup := false }

namespace Avatar

theorem clampCrop_bounds (dims : ImgDims) (size x y : ℚ)
    (hW : size ≤ dims.dispW) (hH : size ≤ dims.dispH) :
    dims.offsetX ≤ (clampCrop dims size x y).1 ∧
    (clampCrop dims size x y).1 + size ≤ dims.offsetX + dims.dispW ∧
    dims.offsetY ≤ (clampCrop dims size x y).2 ∧
    (clampCrop dims size x y).2 + size ≤ dims.offsetY + dims.dispH := by
  refine ⟨le_max_left _ _, ?_, le_max_left _ _, ?_⟩
  · have h1 : (clampCrop dims size x y).1 ≤ dims.offsetX + dims.dispW - size :=
      max_le (by linarith) (min_le_left _ _)
    linarith
  · have h2 : (clampCrop dims size x y).2 ≤ dims.offsetY + dims.dispH - size :=
      max_le (by linarith) (min_le_left _ _)
    linarith

theorem runDragEvents_size (dims : ImgDims) (crop : CropArea)
    (events : List ((ℚ × ℚ) × ℚ × ℚ)) :
    (runDragEvents dims crop events).size = crop.size := by
  induction events generalizing crop with
  | nil => rfl
  | cons e es ih => exact (ih (dragStep dims crop e)).trans rfl

theorem runDragEvents_contained (dims : ImgDims) (crop : CropArea)
    (events : List ((ℚ × ℚ) × ℚ × ℚ))
    (hW : crop.size ≤ dims.dispW) (hH : crop.size ≤ dims.dispH)
    (hc : Contained dims crop) :
    Contained dims (runDragEvents dims crop events) := by
  induction events generalizing crop with
  | nil => exact hc
  | cons e es ih =>
      have hstep : Contained dims (dragStep dims crop e) :=
        clampCrop_bounds dims crop.size (e.2.1 - e.1.1) (e.2.2 - e.1.2) hW hH
      exact ih (dragStep dims crop e) hW hH hstep

theorem calcDims_initial (cw ch iw ih : ℚ) (hcw : 0 < cw) (hch : 0 < ch)
    (hiw : 0 < iw) (hih : 0 < ih) :
    (calcDims cw ch iw ih).2.size ≤ (calcDims cw ch iw ih).1.dispW ∧
    (calcDims cw ch iw ih).2.size ≤ (calcDims cw ch iw ih).1.dispH ∧
    0 < (calcDims cw ch iw ih).2.size ∧
    Contained (calcDims cw ch iw ih).1 (calcDims cw ch iw ih).2 := by
  have hs : 0 < min (cw / iw) (ch / ih) :=
    lt_min (div_pos hcw hiw) (div_pos hch hih)
  have hdW : 0 < iw * min (cw / iw) (ch / ih) := mul_pos hiw hs
  have hdH : 0 < ih * min (cw / iw) (ch / ih) := mul_pos hih hs
  have hm1 : min (iw * min (cw / iw) (ch / ih)) (ih * min (cw / iw) (ch / ih))
      ≤ iw * min (cw / iw) (ch / ih) := min_le_left _ _
  have hm2 : min (iw * min (cw / iw) (ch / ih)) (ih * min (cw / iw) (ch / ih))
      ≤ ih * min (cw / iw) (ch / ih) := min_le_right _ _
  have hm0 : 0 < min (iw * min (cw / iw) (ch / ih)) (ih * min (cw / iw) (ch / ih)) :=
    lt_min hdW hdH
  simp only [calcDims, Contained]
  refine ⟨by linarith, by linarith, by linarith, by linarith, by linarith, by linarith, by linarith⟩

end Avatar

/-- C3: the move operation translates the region by the pointer
displacement and then clamps `x` into `[offsetX, offsetX + dispW - size]`
and `y` into `[offsetY, offsetY + dispH - size]`, leaving the size (the
region's width and height) unchanged; a displacement pushing the
translated `x` below the minimum bound yields exactly `x = offsetX`, and
a translated position already inside the bounds is kept as is. -/
theorem move_translates_then_clamps (dims : ImgDims) (ds : ℚ × ℚ)
    (c : Avatar.CropArea) (px py : ℚ)
    (hW : c.size ≤ dims.dispW) (hH : c.size ≤ dims.dispH) :
    (Avatar.handlePointerMove dims ds c px py).size = c.size ∧
    dims.offsetX ≤ (Avatar.handlePointerMove dims ds c px py).x ∧
    (Avatar.handlePointerMove dims ds c px py).x ≤ dims.offsetX + dims.dispW - c.size ∧
    dims.offsetY ≤ (Avatar.handlePointerMove dims ds c px py).y ∧
    (Avatar.handlePointerMove dims ds c px py).y ≤ dims.offsetY + dims.dispH - c.size ∧
    (px - ds.1 < dims.offsetX → (Avatar.handlePointerMove dims ds c px py).x = dims.offsetX) ∧
    (dims.offsetX ≤ px - ds.1 → px - ds.1 ≤ dims.offsetX + dims.dispW - c.size →
      (Avatar.handlePointerMove dims ds c px py).x = px - ds.1) ∧
    (py - ds.2 < dims.offsetY → (Avatar.handlePointerMove dims ds c px py).y = dims.offsetY) ∧
    (dims.offsetY ≤ py - ds.2 → py - ds.2 ≤ dims.offsetY + dims.dispH - c.size →
      (Avatar.handlePointerMove dims ds c px py).y = py - ds.2) := by
  have hx : (Avatar.handlePointerMove dims ds c px py).x
      = max dims.offsetX (min (dims.offsetX + dims.dispW - c.size) (px - ds.1)) := rfl
  have hy : (Avatar.handlePointerMove dims ds c px py).y
      = max dims.offsetY (min (dims.offsetY + dims.dispH - c.size) (py - ds.2)) := rfl
  refine ⟨rfl, ?_, ?_, ?_, ?_, ?_, ?_, ?_, ?_⟩
  · rw [hx]; exact le_max_left _ _
  · rw [hx]; exact max_le (by linarith) (min_le_left _ _)
  · rw [hy]; exact le_max_left _ _
  · rw [hy]; exact max_le (by linarith) (min_le_left _ _)
  · intro h
    rw [hx, min_eq_right (by linarith), max_eq_left (le_of_lt h)]
  · intro h1 h2
    rw [hx, min_eq_right h2, max_eq_right h1]
  · intro h
    rw [hy, min_eq_right (by linarith), max_eq_left (le_of_lt h)]
  · intro h1 h2
    rw [hy, min_eq_right h2, max_eq_right h1]

/-- Witness for C3 at a concrete drag pushing the translated `x` below
the left bound. -/
theorem move_translates_then_clamps_witness :
    (⟨50, 50, 100⟩ : Avatar.CropArea).size ≤ (⟨600, 600, 300, 300, 10, 10⟩ : ImgDims).dispW ∧
    (⟨50, 50, 100⟩ : Avatar.CropArea).size ≤ (⟨600, 600, 300, 300, 10, 10⟩ : ImgDims).dispH ∧
    ((Avatar.handlePointerMove ⟨600, 600, 300, 300, 10, 10⟩ (0, 0) ⟨50, 50, 100⟩ (-100) 60).size
        = (⟨50, 50, 100⟩ : Avatar.CropArea).size ∧
      (⟨600, 600, 300, 300, 10, 10⟩ : ImgDims).offsetX
        ≤ (Avatar.handlePointerMove ⟨600, 600, 300, 300, 10, 10⟩ (0, 0) ⟨50, 50, 100⟩ (-100) 60).x ∧
      (Avatar.handlePointerMove ⟨600, 600, 300, 300, 10, 10⟩ (0, 0) ⟨50, 50, 100⟩ (-100) 60).x
        ≤ (⟨600, 600, 300, 300, 10, 10⟩ : ImgDims).offsetX
          + (⟨600, 600, 300, 300, 10, 10⟩ : ImgDims).dispW
          - (⟨50, 50, 100⟩ : Avatar.CropArea).size ∧
      (⟨600, 600, 300, 300, 10, 10⟩ : ImgDims).offsetY
        ≤ (Avatar.handlePointerMove ⟨600, 600, 300, 300, 10, 10⟩ (0, 0) ⟨50, 50, 100⟩ (-100) 60).y ∧
      (Avatar.handlePointerMove ⟨600, 600, 300, 300, 10, 10⟩ (0, 0) ⟨50, 50, 100⟩ (-100) 60).y
        ≤ (⟨600, 600, 300, 300, 10, 10⟩ : ImgDims).offsetY
          + (⟨600, 600, 300, 300, 10, 10⟩ : ImgDims).dispH
          - (⟨50, 50, 100⟩ : Avatar.CropArea).size ∧
      ((-100 : ℚ) - (0 : ℚ) < (⟨600, 600, 300, 300, 10, 10⟩ : ImgDims).offsetX →
        (Avatar.handlePointerMove ⟨600, 600, 300, 300, 10, 10⟩ (0, 0) ⟨50, 50, 100⟩ (-100) 60).x
          = (⟨600, 600, 300, 300, 10, 10⟩ : ImgDims).offsetX) ∧
      ((⟨600, 600, 300, 300, 10, 10⟩ : ImgDims).offsetX ≤ (-100 : ℚ) - (0 : ℚ) →
        (-100 : ℚ) - (0 : ℚ) ≤ (⟨600, 600, 300, 300, 10, 10⟩ : ImgDims).offsetX
          + (⟨600, 600, 300, 300, 10, 10⟩ : ImgDims).dispW
          - (⟨50, 50, 100⟩ : Avatar.CropArea).size →
        (Avatar.handlePointerMove ⟨600, 600, 300, 300, 10, 10⟩ (0, 0) ⟨50, 50, 100⟩ (-100) 60).x
          = (-100 : ℚ) - (0 : ℚ)) ∧
      ((60 : ℚ) - (0 : ℚ) < (⟨600, 600, 300, 300, 10, 10⟩ : ImgDims).offsetY →
        (Avatar.handlePointerMove ⟨600, 600, 300, 300, 10, 10⟩ (0, 0) ⟨50, 50, 100⟩ (-100) 60).y
          = (⟨600, 600, 300, 300, 10, 10⟩ : ImgDims).offsetY) ∧
      ((⟨600, 600, 300, 300, 10, 10⟩ : ImgDims).offsetY ≤ (60 : ℚ) - (0 : ℚ) →
        (60 : ℚ) - (0 : ℚ) ≤ (⟨600, 600, 300, 300, 10, 10⟩ : ImgDims).offsetY
          + (⟨600, 600, 300, 300, 10, 10⟩ : ImgDims).dispH
          - (⟨50, 50, 100⟩ : Avatar.CropArea).size →
        (Avatar.handlePointerMove ⟨600, 600, 300, 300, 10, 10⟩ (0, 0) ⟨50, 50, 100⟩ (-100) 60).y
          = (60 : ℚ) - (0 : ℚ))) :=
  ⟨by decide, by decide,
    move_translates_then_clamps ⟨600, 600, 300, 300, 10, 10⟩ (0, 0) ⟨50, 50, 100⟩ (-100) 60
      (by decide) (by decide)⟩

/-- C2: for every valid drag sequence starting from the initial region
computed on image load, the crop region at the end of every pointer-move
handling step lies fully inside the displayed image's bounding box. -/
theorem crop_containment_invariant (cw ch iw ih : ℚ)
    (hcw : 0 < cw) (hch : 0 < ch) (hiw : 0 < iw) (hih : 0 < ih)
    (events : List ((ℚ × ℚ) × ℚ × ℚ)) :
    Avatar.Contained (Avatar.calcDims cw ch iw ih).1
      (Avatar.runDragEvents (Avatar.calcDims cw ch iw ih).1
        (Avatar.calcDims cw ch iw ih).2 events) := by
  obtain ⟨h1, h2, _, h4⟩ := Avatar.calcDims_initial cw ch iw ih hcw hch hiw hih
  exact Avatar.runDragEvents_contained _ _ events h1 h2 h4

/-- Witness for C2 on a concrete image, container and drag sequence. -/
theorem crop_containment_invariant_witness :
    (0 : ℚ) < 400 ∧ (0 : ℚ) < 400 ∧ (0 : ℚ) < 800 ∧ (0 : ℚ) < 600 ∧
    Avatar.Contained (Avatar.calcDims 400 400 800 600).1
      (Avatar.runDragEvents (Avatar.calcDims 400 400 800 600).1
        (Avatar.calcDims 400 400 800 600).2 [((0, 0), 1000, -1000), ((5, 5), 20, 30)]) :=
  ⟨by decide, by decide, by decide, by decide,
    crop_containment_invariant 400 400 800 600 (by decide) (by decide) (by decide) (by decide)
      [((0, 0), 1000, -1000), ((5, 5), 20, 30)]⟩

namespace PostCropper

theorem aspect_div (ar A : ℚ) (har : ar ≠ 0) : A = ar * (A / ar) := by
  rw [mul_comm, div_mul_cancel₀ A har]

theorem finalClamp_aspect (dims : ImgDims) (ar x y w h : ℚ) (har : ar ≠ 0)
    (hwh : w = ar * h) :
    (finalClamp dims ar x y w h).w = ar * (finalClamp dims ar x y w h).h := by
  simp only [finalClamp]
  split_ifs <;> dsimp only <;> first
    | exact hwh
    | exact mul_comm _ _
    | exact aspect_div ar _ har

theorem resizeCrop_aspect (dims : ImgDims) (ar : ℚ) (cs : RectCrop) (handle : Handle)
    (dx dy : ℚ) (har : ar ≠ 0) :
    AspectInv ar (resizeCrop dims ar cs handle dx dy) := by
  unfold AspectInv
  cases handle <;>
    (simp only [resizeCrop]
     apply finalClamp_aspect _ _ _ _ _ _ har
     first
      | exact mul_comm _ _
      | exact aspect_div ar _ har)

/-- The aspect-ratio invariant on the component state: it holds of the
current region and of the captured session start region. -/
def StInv (ar : ℚ) (st : State) : Prop :=
  AspectInv ar st.cropArea ∧ AspectInv ar st.cropStart

theorem step_aspect (dims : ImgDims) (ar : ℚ) (st : State) (e : PEvent) (har : ar ≠ 0)
    (h : StInv ar st) : StInv ar (step dims ar st e) := by
  obtain ⟨h1, h2⟩ := h
  obtain ⟨ca, dm, dstart, cstart⟩ := st
  cases e with
  | down px py =>
      have hstep : step dims ar ⟨ca, dm, dstart, cstart⟩ (.down px py)
          = match detectMode ca px py with
            | none => ⟨ca, dm, dstart, cstart⟩
            | some m => ⟨ca, some m, (px, py), ca⟩ := rfl
      rw [hstep]
      cases detectMode ca px py with
      | none => exact ⟨h1, h2⟩
      | some m => exact ⟨h1, h1⟩
  | move px py =>
      cases dm with
      | none => exact ⟨h1, h2⟩
      | some m =>
          cases m with
          | move => exact ⟨h1, h2⟩
          | resize hd => exact ⟨resizeCrop_aspect dims ar cstart hd _ _ har, h2⟩
  | up => exact ⟨h1, h2⟩

theorem calcDims_aspect (ar cw ch iw ih : ℚ) (har : ar ≠ 0) :
    AspectInv ar (calcDims ar cw ch iw ih).2 := by
  unfold AspectInv
  simp only [calcDims]
  split_ifs <;> dsimp only <;> first
    | exact mul_comm _ _
    | exact aspect_div ar _ har

theorem foldl_step_aspect (dims : ImgDims) (ar : ℚ) (st : State) (events : List PEvent)
    (har : ar ≠ 0) (h : StInv ar st) :
    StInv ar (events.foldl (step dims ar) st) := by
  induction events generalizing st with
  | nil => exact h
  | cons e es ih => exact ih _ (step_aspect dims ar st e har h)

theorem run_aspect (ar cw ch iw ih : ℚ) (events : List PEvent) (har : ar ≠ 0) :
    StInv ar (run ar cw ch iw ih events) :=
  foldl_step_aspect _ ar _ events har
    ⟨calcDims_aspect ar cw ch iw ih har, (mul_zero ar).symm⟩

end PostCropper

/-- C1: along every valid drag sequence, after every move/resize handling
step the crop region's aspect ratio (width over height) equals the
configured target ratio within 1/1000.  For the avatar cropper
(hardcoded 1:1 target) the region stays square, so the ratio is exactly
one; for the post cropper with configured ratio `ar` the exact relation
`w = ar * h` holds after every event, so whenever the height is positive
the ratio equals `ar` exactly. -/
theorem aspect_ratio_invariant
    (sqDims : ImgDims) (sqCrop : Avatar.CropArea) (sqEvents : List ((ℚ × ℚ) × ℚ × ℚ))
    (hsq : 0 < sqCrop.size)
    (ar cw ch iw ih : ℚ) (events : List PostCropper.PEvent) (har : 0 < ar) :
    |(Avatar.runDragEvents sqDims sqCrop sqEvents).width
        / (Avatar.runDragEvents sqDims sqCrop sqEvents).height - Avatar.targetAspect|
      ≤ 1 / 1000 ∧
    (PostCropper.run ar cw ch iw ih events).cropArea.w
      = ar * (PostCropper.run ar cw ch iw ih events).cropArea.h ∧
    (0 < (PostCropper.run ar cw ch iw ih events).cropArea.h →
      |(PostCropper.run ar cw ch iw ih events).cropArea.w
          / (PostCropper.run ar cw ch iw ih events).cropArea.h - ar| ≤ 1 / 1000) := by
  have hpost := PostCropper.run_aspect ar cw ch iw ih events (ne_of_gt har)
  refine ⟨?_, hpost.1, ?_⟩
  · have hs := Avatar.runDragEvents_size sqDims sqCrop sqEvents
    have hone : (Avatar.runDragEvents sqDims sqCrop sqEvents).width
        / (Avatar.runDragEvents sqDims sqCrop sqEvents).height = 1 := by
      unfold Avatar.CropArea.width Avatar.CropArea.height
      rw [hs]
      exact div_self (ne_of_gt hsq)
    rw [hone]
    unfold Avatar.targetAspect
    norm_num
  · intro hpos
    rw [hpost.1, mul_div_assoc, div_self (ne_of_gt hpos), mul_one, sub_self, abs_zero]
    norm_num

/-- Witness for C1 on concrete drags of both croppers (post cropper with
configured ratio 4:5, including a press, a move and a release). -/
theorem aspect_ratio_invariant_witness :
    (0 : ℚ) < (⟨0, 0, 200⟩ : Avatar.CropArea).size ∧ (0 : ℚ) < (4 / 5 : ℚ) ∧
    (|(Avatar.runDragEvents ⟨800, 600, 400, 300, 0, 50⟩ ⟨0, 0, 200⟩ [((0, 0), 30, 40)]).width
        / (Avatar.runDragEvents ⟨800, 600, 400, 300, 0, 50⟩ ⟨0, 0, 200⟩ [((0, 0), 30, 40)]).height
        - Avatar.targetAspect| ≤ 1 / 1000 ∧
      (PostCropper.run (4 / 5) 400 400 500 500
          [PostCropper.PEvent.down 200 200, PostCropper.PEvent.move 250 200,
            PostCropper.PEvent.up]).cropArea.w
        = 4 / 5 * (PostCropper.run (4 / 5) 400 400 500 500
          [PostCropper.PEvent.down 200 200, PostCropper.PEvent.move 250 200,
            PostCropper.PEvent.up]).cropArea.h ∧
      (0 < (PostCropper.run (4 / 5) 400 400 500 500
          [PostCropper.PEvent.down 200 200, PostCropper.PEvent.move 250 200,
            PostCropper.PEvent.up]).cropArea.h →
        |(PostCropper.run (4 / 5) 400 400 500 500
            [PostCropper.PEvent.down 200 200, PostCropper.PEvent.move 250 200,
              PostCropper.PEvent.up]).cropArea.w
          / (PostCropper.run (4 / 5) 400 400 500 500
            [PostCropper.PEvent.down 200 200, PostCropper.PEvent.move 250 200,
              PostCropper.PEvent.up]).cropArea.h - 4 / 5| ≤ 1 / 1000)) :=
  ⟨by decide, by norm_num,
    aspect_ratio_invariant ⟨800, 600, 400, 300, 0, 50⟩ ⟨0, 0, 200⟩ [((0, 0), 30, 40)]
      (by decide) (4 / 5) 400 400 500 500
      [PostCropper.PEvent.down 200 200, PostCropper.PEvent.move 250 200, PostCropper.PEvent.up]
      (by norm_num)⟩

/-- C4: `mapRegionToSource` inverts the uniform scale-to-fit display
transform: for every display transform derived from a natural image size
and container size, the region that covers the full displayed image maps
back to the full natural rectangle `(0, 0, naturalWidth, naturalHeight)`
exactly (hence within one pixel of rounding); covering the full display
with the square region forces the natural image to be square. -/
theorem mapRegionToSource_inverts_display (cw ch iw ih : ℚ)
    (hcw : 0 < cw) (hch : 0 < ch) (hiw : 0 < iw) (hih : 0 < ih)
    (c : Avatar.CropArea)
    (hx : c.x = (Avatar.calcDims cw ch iw ih).1.offsetX)
    (hy : c.y = (Avatar.calcDims cw ch iw ih).1.offsetY)
    (hw : c.size = (Avatar.calcDims cw ch iw ih).1.dispW)
    (hh : c.size = (Avatar.calcDims cw ch iw ih).1.dispH) :
    Avatar.mapRegionToSource (Avatar.calcDims cw ch iw ih).1 c = (0, 0, iw) ∧ iw = ih := by
  have hfw : (Avatar.calcDims cw ch iw ih).1.w = iw := rfl
  have hfh : (Avatar.calcDims cw ch iw ih).1.h = ih := rfl
  have hfdW : (Avatar.calcDims cw ch iw ih).1.dispW = iw * min (cw / iw) (ch / ih) := rfl
  have hfdH : (Avatar.calcDims cw ch iw ih).1.dispH = ih * min (cw / iw) (ch / ih) := rfl
  have hs : 0 < min (cw / iw) (ch / ih) :=
    lt_min (div_pos hcw hiw) (div_pos hch hih)
  have hsne : min (cw / iw) (ch / ih) ≠ 0 := ne_of_gt hs
  have hprodne : iw * min (cw / iw) (ch / ih) ≠ 0 := ne_of_gt (mul_pos hiw hs)
  have hWH : (Avatar.calcDims cw ch iw ih).1.dispW = (Avatar.calcDims cw ch iw ih).1.dispH :=
    hw.symm.trans hh
  rw [hfdW, hfdH] at hWH
  have hiwih : iw = ih := mul_right_cancel₀ hsne hWH
  refine ⟨?_, hiwih⟩
  simp only [Avatar.mapRegionToSource, Prod.mk.injEq]
  rw [hfw, hfh, hfdW, hfdH, hx, hy, hw, hfdW]
  refine ⟨by ring, by ring, ?_⟩
  rw [← hiwih] at hprodne
  rw [← hiwih, min_self, mul_comm, div_mul_cancel₀ iw hprodne]

/-- Witness for C4 on a square 500x500 image in a 400x400 container. -/
theorem mapRegionToSource_inverts_display_witness :
    (0 : ℚ) < 400 ∧ (0 : ℚ) < 400 ∧ (0 : ℚ) < 500 ∧ (0 : ℚ) < 500 ∧
    (⟨0, 0, 400⟩ : Avatar.CropArea).x = (Avatar.calcDims 400 400 500 500).1.offsetX ∧
    (⟨0, 0, 400⟩ : Avatar.CropArea).y = (Avatar.calcDims 400 400 500 500).1.offsetY ∧
    (⟨0, 0, 400⟩ : Avatar.CropArea).size = (Avatar.calcDims 400 400 500 500).1.dispW ∧
    (⟨0, 0, 400⟩ : Avatar.CropArea).size = (Avatar.calcDims 400 400 500 500).1.dispH ∧
    (Avatar.mapRegionToSource (Avatar.calcDims 400 400 500 500).1 ⟨0, 0, 400⟩
        = (0, 0, 500) ∧ (500 : ℚ) = 500) :=
  ⟨by decide, by decide, by decide, by decide,
    by norm_num [Avatar.calcDims], by norm_num [Avatar.calcDims],
    by norm_num [Avatar.calcDims], by norm_num [Avatar.calcDims],
    mapRegionToSource_inverts_display 400 400 500 500 (by decide) (by decide) (by decide)
      (by decide) ⟨0, 0, 400⟩ (by norm_num [Avatar.calcDims]) (by norm_num [Avatar.calcDims])
      (by norm_num [Avatar.calcDims]) (by norm_num [Avatar.calcDims])⟩

/-- Counterexample to C5 as stated: for the avatar cropper's export on a
4000x4000 image in a 400x400 container (source crop width 3200 pixels),
the output width is the constant 400, not `min(1080, sourceCropWidth)
= 1080`. -/
theorem export_width_not_min_1080 :
    ((Avatar.handleCrop (Avatar.calcDims 400 400 4000 4000).1
        (Avatar.calcDims 400 400 4000 4000).2).outWidth : ℚ)
      ≠ min 1080 (Avatar.handleCrop (Avatar.calcDims 400 400 4000 4000).1
        (Avatar.calcDims 400 400 4000 4000).2).srcSize := by
  have h1 : Avatar.calcDims 400 400 4000 4000
      = (⟨4000, 4000, 400, 400, 0, 0⟩, ⟨40, 40, 320⟩) := by
    norm_num [Avatar.calcDims]
  rw [h1]
  have h2 : (Avatar.handleCrop ⟨4000, 4000, 400, 400, 0, 0⟩ ⟨40, 40, 320⟩).srcSize
      = 3200 := by
    norm_num [Avatar.handleCrop, Avatar.mapRegionToSource]
  rw [h2, min_eq_left (by norm_num : (1080 : ℚ) ≤ 3200)]
  norm_num [Avatar.handleCrop]

/-- C5 amended: the avatar cropper's export width is the constant 400
(not `min(1080, sourceCropWidth)`); the post cropper's export width is
`min(1080, round(sourceCropWidth))`; in both croppers the output width
never exceeds 1080 pixels regardless of source resolution. -/
theorem export_width_amended (dims : ImgDims) (crop : Avatar.CropArea)
    (pd : ImgDims) (ar : ℚ) (rc : PostCropper.RectCrop) :
    (Avatar.handleCrop dims crop).outWidth = 400 ∧
    ((Avatar.handleCrop dims crop).outWidth : ℤ) ≤ 1080 ∧
    (PostCropper.handleCrop pd ar rc).outputW
      = min 1080 (PostCropper.jsRound (rc.w * (pd.w / pd.dispW))) ∧
    (PostCropper.handleCrop pd ar rc).outputW ≤ 1080 := by
  refine ⟨rfl, ?_, rfl, ?_⟩
  · show ((400 : ℕ) : ℤ) ≤ 1080
    norm_num
  · show min (1080 : ℤ) (PostCropper.jsRound (rc.w * (pd.w / pd.dispW))) ≤ 1080
    exact min_le_left _ _

/-- C6: the resize operation of the cropper with the bottom-right handle,
starting region `{x:100, y:100, w:200, h:200}`, aspect ratio 1,
displacement `dx = 50, dy = 0`, and bounds allowing growth (a 1000x1000
displayed image at offset 0), returns `{x:100, y:100, w:250, h:250}`;
the same region results from the pointer-move handler of a drag session
captured on the bottom-right corner. -/
theorem resize_bottom_right_grows_square :
    PostCropper.resizeCrop ⟨1000, 1000, 1000, 1000, 0, 0⟩ 1 ⟨100, 100, 200, 200⟩
        PostCropper.Handle.br 50 0 = ⟨100, 100, 250, 250⟩ ∧
    (PostCropper.handlePointerMove ⟨1000, 1000, 1000, 1000, 0, 0⟩ 1
        ⟨⟨100, 100, 200, 200⟩, some (PostCropper.DragMode.resize PostCropper.Handle.br),
          (300, 300), ⟨100, 100, 200, 200⟩⟩ 350 300).cropArea
      = ⟨100, 100, 250, 250⟩ := by
  constructor <;>
    norm_num [PostCropper.handlePointerMove, PostCropper.resizeCrop,
      PostCropper.getMaxCropSize, PostCropper.finalClamp, PostCropper.MIN_CROP_SIZE,
      min_def, max_def]

/-- C7: if the source image never fires its load event (for example when
decoding fails), the cropper stays in the loading state indefinitely:
`imgLoaded` is never set, the spinner branch stays rendered, and no
callback is ever invoked toward the caller (no error path exists). -/
theorem load_failure_stalls (events : List ImgEvent) (h : ImgEvent.load ∉ events) :
    (events.foldl imgEventStep initLoadState).imgLoaded = false ∧
    showsLoadingSpinner (events.foldl imgEventStep initLoadState) = true ∧
    (events.map imgEventCallbacks).flatten = [] := by
  have hfix : events.foldl imgEventStep initLoadState = initLoadState := by
    generalize initLoadState = s
    induction events generalizing s with
    | nil => rfl
    | cons e es ih =>
        have he : e ≠ ImgEvent.load := fun hh => h (hh ▸ List.mem_cons_self _ _)
        have hes : ImgEvent.load ∉ es := fun hh => h (List.mem_cons_of_mem _ hh)
        cases e with
        | load => exact absurd rfl he
        | error => exact ih hes s
  rw [hfix]
  refine ⟨rfl, rfl, ?_⟩
  induction events with
  | nil => rfl
  | cons e es ih =>
      have hes : ImgEvent.load ∉ es := fun hh => h (List.mem_cons_of_mem _ hh)
      simp [imgEventCallbacks, ih hes]

/-- Witness for C7 on a concrete event sequence without a load event. -/
theorem load_failure_stalls_witness :
    ImgEvent.load ∉ [ImgEvent.error, ImgEvent.error] ∧
    (([ImgEvent.error, ImgEvent.error].foldl imgEventStep initLoadState).imgLoaded = false ∧
      showsLoadingSpinner ([ImgEvent.error, ImgEvent.error].foldl imgEventStep initLoadState)
        = true ∧
      ([ImgEvent.error, ImgEvent.error].map imgEventCallbacks).flatten = []) :=
  ⟨by decide, load_failure_stalls [ImgEvent.error, ImgEvent.error] (by decide)⟩

/-- C8: the three unread-count computations (read-flag count for direct
messages, 24-hour-window count for group messages, local last-seen count
for notifications) are pairwise inequivalent: over the same list of four
incoming messages, with `now = 100000000` and a stored last-seen
timestamp of 100, they report 1, 2 and 3. -/
theorem unread_heuristics_pairwise_inequivalent :
    fetchUnreadMessages 1
        [⟨2, 1, 50, false⟩, ⟨2, 1, 20000000, true⟩, ⟨2, 1, 1000, true⟩, ⟨2, 1, 20000001, true⟩]
      = 1 ∧
    fetchUnreadGroups 1 100000000
        [⟨2, 1, 50, false⟩, ⟨2, 1, 20000000, true⟩, ⟨2, 1, 1000, true⟩, ⟨2, 1, 20000001, true⟩]
      = 2 ∧
    unreadFromLastSeen (some 100)
        [⟨2, 1, 50, false⟩, ⟨2, 1, 20000000, true⟩, ⟨2, 1, 1000, true⟩, ⟨2, 1, 20000001, true⟩]
      = 3 ∧
    fetchUnreadMessages 1
        [⟨2, 1, 50, false⟩, ⟨2, 1, 20000000, true⟩, ⟨2, 1, 1000, true⟩, ⟨2, 1, 20000001, true⟩]
      ≠ fetchUnreadGroups 1 100000000
        [⟨2, 1, 50, false⟩, ⟨2, 1, 20000000, true⟩, ⟨2, 1, 1000, true⟩, ⟨2, 1, 20000001, true⟩] ∧
    fetchUnreadMessages 1
        [⟨2, 1, 50, false⟩, ⟨2, 1, 20000000, true⟩, ⟨2, 1, 1000, true⟩, ⟨2, 1, 20000001, true⟩]
      ≠ unreadFromLastSeen (some 100)
        [⟨2, 1, 50, false⟩, ⟨2, 1, 20000000, true⟩, ⟨2, 1, 1000, true⟩, ⟨2, 1, 20000001, true⟩] ∧
    fetchUnreadGroups 1 100000000
        [⟨2, 1, 50, false⟩, ⟨2, 1, 20000000, true⟩, ⟨2, 1, 1000, true⟩, ⟨2, 1, 20000001, true⟩]
      ≠ unreadFromLastSeen (some 100)
        [⟨2, 1, 50, false⟩, ⟨2, 1, 20000000, true⟩, ⟨2, 1, 1000, true⟩, ⟨2, 1, 20000001, true⟩] := by
  decide

/-- C9: deleting a conversation performs no backend mutation: the message
store is left unchanged; the handler only records the timestamp under
the other user's id in the local-storage map and filters that contact
out of the locally displayed list. -/
theorem delete_conversation_local_only (s : ConvoState) (target : ℕ) (now : ℤ) :
    (handleDeleteConversation s target now).backendMessages = s.backendMessages ∧
    (handleDeleteConversation s target now).deletedConvos.lookup target = some now ∧
    (handleDeleteConversation s target now).contacts
      = s.contacts.filter (fun c => c != target) := by
  refine ⟨rfl, ?_, rfl⟩
  show List.lookup target
      ((target, now) :: s.deletedConvos.filter (fun p => p.1 != target)) = some now
  simp [List.lookup]

/-- C10: for every source image and crop selection, the avatar cropper's
export handed to `onCrop` is exactly 400 by 400 pixels, JPEG-encoded at
quality 0.9, independent of the source resolution and of the selected
crop size. -/
theorem avatar_export_fixed_format (dims : ImgDims) (crop : Avatar.CropArea) :
    (Avatar.handleCrop dims crop).outWidth = 400 ∧
    (Avatar.handleCrop dims crop).outHeight = 400 ∧
    (Avatar.handleCrop dims crop).mime = "image/jpeg" ∧
    (Avatar.handleCrop dims crop).quality = 9 / 10 :=
  ⟨rfl, rfl, rfl, rfl⟩
